import Mathlib

/-!
Verification of the pixel-format conversion and output-format matching
subsystem of Stackistry (`src/utils.cpp`), as a shallow embedding in Lean.

The code under verification lives in `namespace Utils` of `utils.cpp`:
`FindMatchingFormat`, `ConvertImgToSurface`, `EnumerateSupportedOutputFmts`
and `GetOutputFormatDescr`.  The imaging library (libskry) and the rendering
backend (cairo) are external collaborators: their static tables
(`NUM_CHANNELS`, `BITS_PER_CHANNEL`, `OUTPUT_FMT_BITS_PER_CHANNEL`, the
enum bounds) are modelled as an explicit catalog parameter, their image
conversion routine as a function parameter, and cairo's surface allocation
by its documented stride rule for `FORMAT_RGB24`.
-/

namespace Utils

/-! ## Pixel-format catalog (libskry static tables)

`enum SKRY_pixel_format` starts at `SKRY_PIX_INVALID = 0`; the valid
identifiers are `SKRY_PIX_INVALID + 1 .. SKRY_NUM_PIX_FORMATS - 1`, one of
which is the palette-indexed sentinel `SKRY_PIX_PAL8`.  The per-identifier
channel count, bits per channel and per-output-format required bit depth
are static lookup tables of the external library, so they are catalog
fields rather than fixed Lean constants. -/

/-- The invalid-format sentinel `SKRY_PIX_INVALID`, first enumerator (= 0). -/
def SKRY_PIX_INVALID : Nat := 0

/-- The static tables of libskry that `FindMatchingFormat` consults:
enum bound, palette sentinel, and the three lookup arrays. -/
structure PixFmtCatalog where
  /-- `SKRY_NUM_PIX_FORMATS`: one past the last valid identifier. -/
  numPixFormats : Nat
  /-- `SKRY_PIX_PAL8`: the palette-indexed sentinel. -/
  palIdx : Nat
  /-- `NUM_CHANNELS[i]`. -/
  numChannels : Nat → Nat
  /-- `BITS_PER_CHANNEL[i]`. -/
  bitsPerChannel : Nat → Nat
  /-- `OUTPUT_FMT_BITS_PER_CHANNEL[fmt]`. -/
  outputFmtBitsPerChannel : Nat → Nat

/-- The loop condition of `FindMatchingFormat`: identifier `i` is not the
palette sentinel, has the requested channel count, and has the output
format's required bits per channel. -/
def fmtMatches (cat : PixFmtCatalog) (outputFmt numCh i : Nat) : Prop :=
  i ≠ cat.palIdx
    ∧ cat.numChannels i = numCh
    ∧ cat.outputFmtBitsPerChannel outputFmt = cat.bitsPerChannel i

instance (cat : PixFmtCatalog) (outputFmt numCh i : Nat) :
    Decidable (fmtMatches cat outputFmt numCh i) := by
  unfold fmtMatches; infer_instance

/-- The scan loop of `FindMatchingFormat`, from index `i` upward:
`for (int i = SKRY_PIX_INVALID+1; i < SKRY_NUM_PIX_FORMATS; i++) ...`. -/
def findLoop (cat : PixFmtCatalog) (outputFmt numCh i : Nat) : Nat :=
  if h : i < cat.numPixFormats then
    if fmtMatches cat outputFmt numCh i then i
    else findLoop cat outputFmt numCh (i + 1)
  else SKRY_PIX_INVALID
termination_by cat.numPixFormats - i

/-- `Utils::FindMatchingFormat(outputFmt, numChannels)`: scan all valid
pixel-format identifiers in ascending order, skipping the palette sentinel,
and return the first whose channel count and bit depth fit; return
`SKRY_PIX_INVALID` when none does. -/
def FindMatchingFormat (cat : PixFmtCatalog) (outputFmt numCh : Nat) : Nat :=
  findLoop cat outputFmt numCh (SKRY_PIX_INVALID + 1)

/-! ### Loop lemmas -/

theorem findLoop_found (cat : PixFmtCatalog) (outputFmt numCh : Nat) :
    ∀ lo, (∃ i, lo ≤ i ∧ i < cat.numPixFormats ∧ fmtMatches cat outputFmt numCh i) →
      fmtMatches cat outputFmt numCh (findLoop cat outputFmt numCh lo) ∧
      lo ≤ findLoop cat outputFmt numCh lo ∧
      findLoop cat outputFmt numCh lo < cat.numPixFormats ∧
      ∀ k, lo ≤ k → k < findLoop cat outputFmt numCh lo →
        ¬ fmtMatches cat outputFmt numCh k := by
  suffices H : ∀ fuel lo, cat.numPixFormats - lo ≤ fuel →
      (∃ i, lo ≤ i ∧ i < cat.numPixFormats ∧ fmtMatches cat outputFmt numCh i) →
      fmtMatches cat outputFmt numCh (findLoop cat outputFmt numCh lo) ∧
      lo ≤ findLoop cat outputFmt numCh lo ∧
      findLoop cat outputFmt numCh lo < cat.numPixFormats ∧
      ∀ k, lo ≤ k → k < findLoop cat outputFmt numCh lo →
        ¬ fmtMatches cat outputFmt numCh k by
    intro lo h
    exact H (cat.numPixFormats - lo) lo le_rfl h
  intro fuel
  induction fuel with
  | zero =>
    intro lo hfuel h
    obtain ⟨i, hle, hlt, _⟩ := h
    omega
  | succ n ih =>
    intro lo hfuel h
    have hlt : lo < cat.numPixFormats := by
      obtain ⟨i, hle, hilt, _⟩ := h
      omega
    by_cases hm : fmtMatches cat outputFmt numCh lo
    · rw [findLoop, dif_pos hlt, if_pos hm]
      exact ⟨hm, le_rfl, hlt, fun k hk1 hk2 => absurd (lt_of_le_of_lt hk1 hk2) (lt_irrefl lo)⟩
    · rw [findLoop, dif_pos hlt, if_neg hm]
      have hex : ∃ i, lo + 1 ≤ i ∧ i < cat.numPixFormats ∧ fmtMatches cat outputFmt numCh i := by
        obtain ⟨i, hle, hilt, hmi⟩ := h
        refine ⟨i, ?_, hilt, hmi⟩
        rcases Nat.eq_or_lt_of_le hle with heq | hlt2
        · exact absurd (heq ▸ hmi) hm
        · omega
      obtain ⟨P, hle2, hltN, hmin⟩ := ih (lo + 1) (by omega) hex
      refine ⟨P, by omega, hltN, fun k hk1 hk2 => ?_⟩
      rcases Nat.eq_or_lt_of_le hk1 with heq | hlt3
      · exact heq ▸ hm
      · exact hmin k hlt3 hk2

theorem findLoop_not_found (cat : PixFmtCatalog) (outputFmt numCh : Nat) :
    ∀ lo, (∀ i, lo ≤ i → i < cat.numPixFormats → ¬ fmtMatches cat outputFmt numCh i) →
      findLoop cat outputFmt numCh lo = SKRY_PIX_INVALID := by
  suffices H : ∀ fuel lo, cat.numPixFormats - lo ≤ fuel →
      (∀ i, lo ≤ i → i < cat.numPixFormats → ¬ fmtMatches cat outputFmt numCh i) →
      findLoop cat outputFmt numCh lo = SKRY_PIX_INVALID by
    intro lo h
    exact H (cat.numPixFormats - lo) lo le_rfl h
  intro fuel
  induction fuel with
  | zero =>
    intro lo hfuel h
    rw [findLoop, dif_neg (by omega)]
  | succ n ih =>
    intro lo hfuel h
    by_cases hlt : lo < cat.numPixFormats
    · rw [findLoop, dif_pos hlt, if_neg (h lo le_rfl hlt)]
      exact ih (lo + 1) (by omega) (fun i hi1 hi2 => h i (by omega) hi2)
    · rw [findLoop, dif_neg hlt]

/-! ## Image-to-surface conversion (`ConvertImgToSurface`)

A `libskry::c_Image` is width, height, pixel format, and a per-row byte
accessor `GetLine(row)`; the accessor is modelled as a total byte function
`line row offset`, so a source whose row stride differs from the
destination's is just a `line` with meaningful bytes past the logical row.
The reference packed format is `SKRY_PIX_BGRA8`; only its distinctness from
other identifiers matters here, the numeric value follows the libskry enum
order.  A `Cairo::ImageSurface` created with `FORMAT_RGB24` has
32 bits per pixel and stride `cairo_format_stride_for_width`, i.e. the
4-byte-aligned row length; its buffer is zero-initialized on creation. -/

/-- The reference packed format `SKRY_PIX_BGRA8` (8-bit BGRA). -/
def SKRY_PIX_BGRA8 : Nat := 4

/-- A decoded image of the external imaging library (`libskry::c_Image`):
`line r o` is byte `o` of the buffer returned by `GetLine(r)`. -/
structure c_Image where
  width : Nat
  height : Nat
  pixFmt : Nat
  line : Nat → Nat → Nat

/-- A cairo image surface: dimensions, row stride, and flat byte buffer. -/
structure ImageSurface where
  width : Nat
  height : Nat
  stride : Nat
  data : Nat → Nat

/-- Cairo's stride rule for a `FORMAT_RGB24` surface of width `w`:
32 bits per pixel, row length rounded up to a multiple of 4 bytes
(`cairo_format_stride_for_width`). -/
def cairoStrideRGB24 (w : Nat) : Nat :=
  ((32 * w + 7) / 8 + 3) / 4 * 4

/-- `Cairo::ImageSurface::create(FORMAT_RGB24, w, h)`: a fresh surface with
the backend-chosen stride and a zeroed buffer. -/
def ImageSurface.create (w h : Nat) : ImageSurface :=
  { width := w, height := h, stride := cairoStrideRGB24 w, data := fun _ => 0 }

/-- One `std::memcpy(data + dstOff, src, n)` on a flat byte buffer. -/
def memcpyAt (data : Nat → Nat) (dstOff : Nat) (src : Nat → Nat) (n : Nat) :
    Nat → Nat :=
  fun off => if dstOff ≤ off ∧ off < dstOff + n then src (off - dstOff) else data off

/-- The row-copy loop of `ConvertImgToSurface`, rows `0 .. n-1`:
`memcpy(surface->get_data() + row * surface->get_stride(), pRgba->GetLine(row), surface->get_stride())`. -/
def copyRows (surf : ImageSurface) (src : c_Image) : Nat → ImageSurface
  | 0 => surf
  | n + 1 =>
    let s := copyRows surf src n
    { s with data := memcpyAt s.data (n * s.stride) (src.line n) s.stride }

/-- `Utils::ConvertImgToSurface(img)`.  `convert` is the external
`libskry::c_Image::ConvertPixelFormat`, which can fail (`none`); on a
source already in `SKRY_PIX_BGRA8` it is bypassed.  The surface is created
with the original image's dimensions; the loop runs over the rows of the
(possibly converted) source `pRgba`. -/
def ConvertImgToSurface (convert : c_Image → Nat → Option c_Image)
    (img : c_Image) : Option ImageSurface :=
  if img.pixFmt ≠ SKRY_PIX_BGRA8 then
    match convert img SKRY_PIX_BGRA8 with
    | none => none
    | some imgBgra =>
      some (copyRows (ImageSurface.create img.width img.height) imgBgra imgBgra.height)
  else
    some (copyRows (ImageSurface.create img.width img.height) img img.height)

/-! ### Copy-loop lemmas -/

theorem copyRows_stride (surf : ImageSurface) (src : c_Image) :
    ∀ n, (copyRows surf src n).stride = surf.stride := by
  intro n
  induction n with
  | zero => rfl
  | succ n ih => simp [copyRows, ih]

theorem copyRows_width (surf : ImageSurface) (src : c_Image) :
    ∀ n, (copyRows surf src n).width = surf.width := by
  intro n
  induction n with
  | zero => rfl
  | succ n ih => simp [copyRows, ih]

theorem copyRows_height (surf : ImageSurface) (src : c_Image) :
    ∀ n, (copyRows surf src n).height = surf.height := by
  intro n
  induction n with
  | zero => rfl
  | succ n ih => simp [copyRows, ih]

/-- Bytes inside a row already copied hold the source row's bytes. -/
theorem copyRows_data_copied (surf : ImageSurface) (src : c_Image) :
    ∀ n r j, r < n → j < surf.stride →
      (copyRows surf src n).data (r * surf.stride + j) = src.line r j := by
  intro n
  induction n with
  | zero => intro r j hr _; omega
  | succ n ih =>
    intro r j hr hj
    have hst : (copyRows surf src n).stride = surf.stride := copyRows_stride surf src n
    rcases Nat.lt_succ_iff_lt_or_eq.mp hr with hlt | heq
    · -- row `r < n`: the final memcpy targets row `n`, disjoint from row `r`
      have hout : ¬ (n * surf.stride ≤ r * surf.stride + j ∧
          r * surf.stride + j < n * surf.stride + surf.stride) := by
        intro ⟨hlo, _⟩
        have : r * surf.stride + j < n * surf.stride := by
          calc r * surf.stride + j < r * surf.stride + surf.stride := by omega
          _ = (r + 1) * surf.stride := by ring
          _ ≤ n * surf.stride := Nat.mul_le_mul_right _ hlt
        omega
      simp only [copyRows, memcpyAt, hst]
      rw [if_neg hout]
      exact ih r j hlt hj
    · -- row `r = n`: written by the final memcpy
      subst heq
      have hin : r * surf.stride ≤ r * surf.stride + j ∧
          r * surf.stride + j < r * surf.stride + surf.stride := by omega
      simp only [copyRows, memcpyAt, hst]
      rw [if_pos hin]
      congr 1
      omega

/-- Bytes at offsets the loop never writes keep their original value. -/
theorem copyRows_data_untouched (surf : ImageSurface) (src : c_Image) :
    ∀ n off, n * surf.stride ≤ off →
      (copyRows surf src n).data off = surf.data off := by
  intro n
  induction n with
  | zero => intro off _; rfl
  | succ n ih =>
    intro off hoff
    have hst : (copyRows surf src n).stride = surf.stride := copyRows_stride surf src n
    have hsplit : (n + 1) * surf.stride = n * surf.stride + surf.stride := by ring
    have hout : ¬ (n * surf.stride ≤ off ∧ off < n * surf.stride + surf.stride) := by
      intro ⟨_, hhi⟩
      omega
    simp only [copyRows, memcpyAt, hst]
    rw [if_neg hout]
    exact ih off (by omega)

/-- For `FORMAT_RGB24`, cairo's stride is exactly four bytes per pixel:
`4 * w` is already 4-byte aligned. -/
theorem cairoStrideRGB24_eq (w : Nat) : cairoStrideRGB24 w = 4 * w := by
  unfold cairoStrideRGB24
  omega

/-! ## Output-format registry

`Vars::outputFormatDescription` is a process-wide `std::vector` of
descriptors; `EnumerateSupportedOutputFmts` appends one entry per output
format in the list reported by `SKRY_get_supported_output_formats`.
The `enum SKRY_output_format` identifiers are values of the external
library; only their mutual distinctness matters for the switch, so the
three recognized ones are fixed distinct naturals. -/

/-- `SKRY_BMP_8` output-format identifier. -/
def SKRY_BMP_8 : Nat := 1

/-- `SKRY_TIFF_16` output-format identifier. -/
def SKRY_TIFF_16 : Nat := 2

/-- `SKRY_PNG_8` output-format identifier. -/
def SKRY_PNG_8 : Nat := 3

/-- `Utils::Vars::OutputFormatDescr_t`: output format identifier, display
name, file-glob patterns, default extension.  A value-initialized
descriptor has empty name, empty pattern list and empty extension. -/
structure OutputFormatDescr_t where
  skryOutpFmt : Nat
  name : String := ""
  patterns : List String := []
  defaultExtension : String := ""
deriving DecidableEq, Repr

/-- The loop body of `EnumerateSupportedOutputFmts` for one reported
format: a default-constructed descriptor gets its `skryOutpFmt` set, then
the `switch` fills in name, patterns and extension for the three known
identifiers and leaves everything else default. -/
def mkDescr (fmt : Nat) : OutputFormatDescr_t :=
  let descr : OutputFormatDescr_t := { skryOutpFmt := fmt }
  if fmt = SKRY_BMP_8 then
    { descr with name := "BMP 8-bit", patterns := ["*.bmp"], defaultExtension := ".bmp" }
  else if fmt = SKRY_TIFF_16 then
    { descr with name := "TIFF 16-bit (uncompressed)", patterns := ["*.tif", "*.tiff"],
                 defaultExtension := ".tif" }
  else if fmt = SKRY_PNG_8 then
    { descr with name := "PNG 8-bit", patterns := ["*.png"], defaultExtension := ".png" }
  else descr

/-- `Utils::EnumerateSupportedOutputFmts()`: for each format in the
library-reported list, push one descriptor onto the registry vector.
The pre-call registry contents are the first argument. -/
def EnumerateSupportedOutputFmts (registry : List OutputFormatDescr_t)
    (supportedFmts : List Nat) : List OutputFormatDescr_t :=
  supportedFmts.foldl (fun reg fmt => reg ++ [mkDescr fmt]) registry

/-- `Utils::GetOutputFormatDescr(outpFmt)`: linear scan for the first
descriptor with the given identifier; the exhausted-scan case reaches
`assert(0)`, modelled as `none`. -/
def GetOutputFormatDescr (registry : List OutputFormatDescr_t) (outpFmt : Nat) :
    Option OutputFormatDescr_t :=
  match registry with
  | [] => none
  | descr :: rest =>
    if descr.skryOutpFmt = outpFmt then some descr
    else GetOutputFormatDescr rest outpFmt

/-! ### Registry lemmas -/

theorem mkDescr_skryOutpFmt (fmt : Nat) : (mkDescr fmt).skryOutpFmt = fmt := by
  unfold mkDescr
  split <;> try rfl
  split <;> try rfl
  split <;> rfl

theorem EnumerateSupportedOutputFmts_eq (registry : List OutputFormatDescr_t)
    (supportedFmts : List Nat) :
    EnumerateSupportedOutputFmts registry supportedFmts =
      registry ++ supportedFmts.map mkDescr := by
  induction supportedFmts generalizing registry with
  | nil => simp [EnumerateSupportedOutputFmts]
  | cons fmt rest ih =>
    simp only [EnumerateSupportedOutputFmts, List.foldl_cons, List.map_cons] at ih ⊢
    rw [ih]
    simp

theorem GetOutputFormatDescr_eq_find (registry : List OutputFormatDescr_t)
    (outpFmt : Nat) :
    GetOutputFormatDescr registry outpFmt =
      registry.find? (fun descr => descr.skryOutpFmt = outpFmt) := by
  induction registry with
  | nil => rfl
  | cons descr rest ih =>
    by_cases h : descr.skryOutpFmt = outpFmt
    · simp [GetOutputFormatDescr, List.find?, h]
    · simp [GetOutputFormatDescr, List.find?, h, ih]

theorem GetOutputFormatDescr_map_mkDescr (reported : List Nat) (fmt : Nat)
    (h : fmt ∈ reported) :
    GetOutputFormatDescr (reported.map mkDescr) fmt = some (mkDescr fmt) := by
  induction reported with
  | nil => cases h
  | cons f rest ih =>
    simp only [List.map_cons, GetOutputFormatDescr, mkDescr_skryOutpFmt]
    by_cases hf : f = fmt
    · subst hf; simp
    · rw [if_neg hf]
      exact ih (by
        rcases List.mem_cons.mp h with heq | hmem
        · exact absurd heq.symm hf
        · exact hmem)

theorem mem_map_mkDescr_eq (reported : List Nat) (fmt : Nat)
    (d : OutputFormatDescr_t) (hd : d ∈ reported.map mkDescr)
    (he : d.skryOutpFmt = fmt) : d = mkDescr fmt := by
  obtain ⟨f, _, rfl⟩ := List.mem_map.mp hd
  rw [mkDescr_skryOutpFmt] at he
  rw [he]

/-! ## Concrete instances used by the witnesses -/

/-- A concrete catalog instance (the spec's worked example, placed after
the two sentinels): identifier 2 has 1 channel at 8 bits, identifier 3 has
3 channels at 8 bits, identifier 4 has 3 channels at 16 bits; the BMP
output format requires 8 bits, the TIFF one 16 bits, the PNG one 8 bits. -/
def exampleCatalog : PixFmtCatalog :=
  { numPixFormats := 5
    palIdx := 1
    numChannels := fun i => if i = 2 then 1 else if i = 3 then 3 else if i = 4 then 3 else 0
    bitsPerChannel := fun i => if i = 2 then 8 else if i = 3 then 8 else if i = 4 then 16 else 0
    outputFmtBitsPerChannel := fun fmt =>
      if fmt = SKRY_BMP_8 then 8 else if fmt = SKRY_TIFF_16 then 16
      else if fmt = SKRY_PNG_8 then 8 else 0 }

/-- A 2-by-2 image already in the reference packed format. -/
def exampleImgBgra : c_Image :=
  { width := 2, height := 2, pixFmt := SKRY_PIX_BGRA8, line := fun r o => 16 * r + o }

/-- A 2-by-2 image in a non-reference format (8-bit mono, identifier 2). -/
def exampleImgMono : c_Image :=
  { width := 2, height := 2, pixFmt := 2, line := fun r o => 16 * r + o }

/-- An external-conversion stub that always fails. -/
def noConvert : c_Image → Nat → Option c_Image := fun _ _ => none

/-- The surface `ConvertImgToSurface` builds from `exampleImgBgra`. -/
def exampleSurfBgra : ImageSurface :=
  copyRows (ImageSurface.create 2 2) exampleImgBgra 2

/-! ## Claim theorems -/

/-- C1: for every (outputFormat, numChannels) pair supported by the
catalog — i.e. some valid identifier other than the two sentinels has the
requested channel count and the output format's required bit depth —
`FindMatchingFormat` returns the first such identifier in ascending
identifier order, and the returned format therefore has
`channelCount = numChannels` and
`bitsPerChannel = requiredBitsPerChannel(outputFormat)`. -/
theorem FindMatchingFormat_returns_first_match (cat : PixFmtCatalog)
    (outputFmt numCh : Nat)
    (h : ∃ i, SKRY_PIX_INVALID < i ∧ i < cat.numPixFormats ∧
      fmtMatches cat outputFmt numCh i) :
    cat.numChannels (FindMatchingFormat cat outputFmt numCh) = numCh ∧
    cat.bitsPerChannel (FindMatchingFormat cat outputFmt numCh) =
      cat.outputFmtBitsPerChannel outputFmt ∧
    FindMatchingFormat cat outputFmt numCh ≠ cat.palIdx ∧
    SKRY_PIX_INVALID < FindMatchingFormat cat outputFmt numCh ∧
    FindMatchingFormat cat outputFmt numCh < cat.numPixFormats ∧
    ∀ k, SKRY_PIX_INVALID < k → k < FindMatchingFormat cat outputFmt numCh →
      ¬ fmtMatches cat outputFmt numCh k := by
  have hex : ∃ i, SKRY_PIX_INVALID + 1 ≤ i ∧ i < cat.numPixFormats ∧
      fmtMatches cat outputFmt numCh i := by
    obtain ⟨i, h1, h2, h3⟩ := h
    exact ⟨i, h1, h2, h3⟩
  obtain ⟨⟨hpal, hch, hbits⟩, hle, hlt, hmin⟩ :=
    findLoop_found cat outputFmt numCh (SKRY_PIX_INVALID + 1) hex
  exact ⟨hch, hbits.symm, hpal, hle, hlt,
    fun k hk1 hk2 => hmin k hk1 hk2⟩

/-- Witness for C1 at the example catalog: `(SKRY_BMP_8, 3 channels)` is a
supported pair, identifier 3 matches it, and identifier 2 (the only smaller
valid non-sentinel identifier) does not. -/
theorem FindMatchingFormat_returns_first_match_witness :
    (∃ i, SKRY_PIX_INVALID < i ∧ i < exampleCatalog.numPixFormats ∧
      fmtMatches exampleCatalog SKRY_BMP_8 3 i) ∧
    exampleCatalog.numChannels (FindMatchingFormat exampleCatalog SKRY_BMP_8 3) = 3 ∧
    exampleCatalog.bitsPerChannel (FindMatchingFormat exampleCatalog SKRY_BMP_8 3) =
      exampleCatalog.outputFmtBitsPerChannel SKRY_BMP_8 := by
  have hex : ∃ i, SKRY_PIX_INVALID < i ∧ i < exampleCatalog.numPixFormats ∧
      fmtMatches exampleCatalog SKRY_BMP_8 3 i :=
    ⟨3, by decide, by decide, by decide⟩
  have := FindMatchingFormat_returns_first_match exampleCatalog SKRY_BMP_8 3 hex
  exact ⟨hex, this.1, this.2.1⟩

/-- C6: when no valid pixel format has both the requested channel count and
the output format's required bit depth, `FindMatchingFormat` returns the
invalid-format sentinel.  The embedded function is total, so the absent
match is an ordinary return value, not an exception or crash. -/
theorem FindMatchingFormat_no_match_invalid (cat : PixFmtCatalog)
    (outputFmt numCh : Nat)
    (h : ∀ i, i < cat.numPixFormats → SKRY_PIX_INVALID < i →
      ¬ fmtMatches cat outputFmt numCh i) :
    FindMatchingFormat cat outputFmt numCh = SKRY_PIX_INVALID :=
  findLoop_not_found cat outputFmt numCh (SKRY_PIX_INVALID + 1)
    (fun i hi1 hi2 => h i hi2 hi1)

/-- Witness for C6: the example catalog has no 4-channel format, so the
pair `(SKRY_BMP_8, 4 channels)` yields the invalid sentinel. -/
theorem FindMatchingFormat_no_match_invalid_witness :
    (∀ i, i < exampleCatalog.numPixFormats → SKRY_PIX_INVALID < i →
      ¬ fmtMatches exampleCatalog SKRY_BMP_8 4 i) ∧
    FindMatchingFormat exampleCatalog SKRY_BMP_8 4 = SKRY_PIX_INVALID := by
  have hnone : ∀ i, i < exampleCatalog.numPixFormats → SKRY_PIX_INVALID < i →
      ¬ fmtMatches exampleCatalog SKRY_BMP_8 4 i := by decide
  exact ⟨hnone, FindMatchingFormat_no_match_invalid exampleCatalog SKRY_BMP_8 4 hnone⟩

/-- C7: `FindMatchingFormat` never returns the palette-indexed format.
The loop skips `SKRY_PIX_PAL8` explicitly, and the no-match result is the
invalid sentinel, a distinct enumerator of `SKRY_pixel_format`. -/
theorem FindMatchingFormat_ne_pal (cat : PixFmtCatalog) (outputFmt numCh : Nat)
    (hpal : cat.palIdx ≠ SKRY_PIX_INVALID) :
    FindMatchingFormat cat outputFmt numCh ≠ cat.palIdx := by
  by_cases h : ∃ i, SKRY_PIX_INVALID + 1 ≤ i ∧ i < cat.numPixFormats ∧
      fmtMatches cat outputFmt numCh i
  · obtain ⟨⟨hne, _, _⟩, _, _, _⟩ :=
      findLoop_found cat outputFmt numCh (SKRY_PIX_INVALID + 1) h
    exact hne
  · have hnone : ∀ i, SKRY_PIX_INVALID + 1 ≤ i → i < cat.numPixFormats →
        ¬ fmtMatches cat outputFmt numCh i := by
      intro i hi1 hi2 hm
      exact h ⟨i, hi1, hi2, hm⟩
    rw [FindMatchingFormat, findLoop_not_found cat outputFmt numCh _ hnone]
    exact fun heq => hpal heq.symm

/-- Witness for C7 at the example catalog (whose palette sentinel is the
distinct identifier 1), at an arbitrary concrete input. -/
theorem FindMatchingFormat_ne_pal_witness :
    exampleCatalog.palIdx ≠ SKRY_PIX_INVALID ∧
    FindMatchingFormat exampleCatalog SKRY_TIFF_16 1 ≠ exampleCatalog.palIdx :=
  ⟨by decide, FindMatchingFormat_ne_pal exampleCatalog SKRY_TIFF_16 1 (by decide)⟩

/-- C2: on an image already in the reference packed format the conversion
step is bypassed, the operation succeeds, and every row of the surface
holds the image's bytes: each row is one `memcpy` whose length is the
destination surface's stride (read from the source row accessor, whatever
the source's own stride is).  For `FORMAT_RGB24` the cairo stride equals
the logical row width `4 * width`, so the trailing pad region of a
destination row is empty and the final conjunct (pad bytes keep the
destination's freshly-allocated value 0) holds vacuously. -/
theorem ConvertImgToSurface_reference_format_copies_rows
    (convert : c_Image → Nat → Option c_Image) (img : c_Image)
    (h : img.pixFmt = SKRY_PIX_BGRA8) :
    ∃ surf, ConvertImgToSurface convert img = some surf ∧
      surf.width = img.width ∧ surf.height = img.height ∧
      surf.stride = cairoStrideRGB24 img.width ∧
      (∀ r, r < img.height → ∀ j, j < surf.stride →
        surf.data (r * surf.stride + j) = img.line r j) ∧
      (∀ r, r < img.height → ∀ j, 4 * img.width ≤ j → j < surf.stride →
        surf.data (r * surf.stride + j) = 0) := by
  refine ⟨copyRows (ImageSurface.create img.width img.height) img img.height,
    ?_, ?_, ?_, ?_, ?_, ?_⟩
  · unfold ConvertImgToSurface
    rw [if_neg (fun hn => hn h)]
  · rw [copyRows_width]; rfl
  · rw [copyRows_height]; rfl
  · rw [copyRows_stride]; rfl
  · intro r hr j hj
    rw [copyRows_stride] at hj ⊢
    exact copyRows_data_copied _ img img.height r j hr hj
  · intro r hr j hjlo hjhi
    rw [copyRows_stride] at hjhi
    have hs : (ImageSurface.create img.width img.height).stride = 4 * img.width := by
      simp [ImageSurface.create, cairoStrideRGB24_eq]
    omega

/-- Witness for C2 at a concrete 2-by-2 reference-format image. -/
theorem ConvertImgToSurface_reference_format_copies_rows_witness :
    exampleImgBgra.pixFmt = SKRY_PIX_BGRA8 ∧
    ∃ surf, ConvertImgToSurface noConvert exampleImgBgra = some surf ∧
      surf.width = exampleImgBgra.width ∧ surf.height = exampleImgBgra.height ∧
      surf.stride = cairoStrideRGB24 exampleImgBgra.width ∧
      (∀ r, r < exampleImgBgra.height → ∀ j, j < surf.stride →
        surf.data (r * surf.stride + j) = exampleImgBgra.line r j) ∧
      (∀ r, r < exampleImgBgra.height → ∀ j, 4 * exampleImgBgra.width ≤ j →
        j < surf.stride → surf.data (r * surf.stride + j) = 0) :=
  ⟨rfl, ConvertImgToSurface_reference_format_copies_rows noConvert exampleImgBgra rfl⟩

/-- C3: on an image in a non-reference format whose external conversion to
the reference format fails, `ConvertImgToSurface` returns the absent
result; no surface is allocated on that path, so no partially-initialized
surface is observable. -/
theorem ConvertImgToSurface_conversion_failure_none
    (convert : c_Image → Nat → Option c_Image) (img : c_Image)
    (h1 : img.pixFmt ≠ SKRY_PIX_BGRA8)
    (h2 : convert img SKRY_PIX_BGRA8 = none) :
    ConvertImgToSurface convert img = none := by
  unfold ConvertImgToSurface
  rw [if_pos h1, h2]

/-- Witness for C3 at a concrete mono image with an always-failing
conversion stub. -/
theorem ConvertImgToSurface_conversion_failure_none_witness :
    exampleImgMono.pixFmt ≠ SKRY_PIX_BGRA8 ∧
    noConvert exampleImgMono SKRY_PIX_BGRA8 = none ∧
    ConvertImgToSurface noConvert exampleImgMono = none :=
  ⟨by decide, rfl,
    ConvertImgToSurface_conversion_failure_none noConvert exampleImgMono (by decide) rfl⟩

/-- C9: whenever `ConvertImgToSurface` returns a surface, the row-copy loop
has written all of the surface's `height` rows from the loop's source image
(the input itself, or the successfully converted copy).  The external
conversion routine preserves the image height, which is the stated
hypothesis. -/
theorem ConvertImgToSurface_fully_populated
    (convert : c_Image → Nat → Option c_Image)
    (hconv : ∀ i fmt c, convert i fmt = some c → c.height = i.height)
    (img : c_Image) (surf : ImageSurface)
    (h : ConvertImgToSurface convert img = some surf) :
    ∃ src : c_Image, (src = img ∨ convert img SKRY_PIX_BGRA8 = some src) ∧
      ∀ r, r < surf.height → ∀ j, j < surf.stride →
        surf.data (r * surf.stride + j) = src.line r j := by
  unfold ConvertImgToSurface at h
  by_cases hfmt : img.pixFmt ≠ SKRY_PIX_BGRA8
  · rw [if_pos hfmt] at h
    cases hc : convert img SKRY_PIX_BGRA8 with
    | none => rw [hc] at h; cases h
    | some imgBgra =>
      rw [hc] at h
      have hsurf : surf =
          copyRows (ImageSurface.create img.width img.height) imgBgra imgBgra.height :=
        (Option.some.inj h).symm
      refine ⟨imgBgra, Or.inr rfl, ?_⟩
      intro r hr j hj
      subst hsurf
      have hh : imgBgra.height = img.height := hconv img SKRY_PIX_BGRA8 imgBgra hc
      rw [copyRows_height] at hr
      rw [copyRows_stride] at hj ⊢
      refine copyRows_data_copied _ _ _ r j ?_ hj
      simp only [ImageSurface.create] at hr
      omega
  · rw [if_neg hfmt] at h
    have hsurf : surf =
        copyRows (ImageSurface.create img.width img.height) img img.height :=
      (Option.some.inj h).symm
    refine ⟨img, Or.inl rfl, ?_⟩
    intro r hr j hj
    subst hsurf
    rw [copyRows_height] at hr
    rw [copyRows_stride] at hj ⊢
    refine copyRows_data_copied _ _ _ r j ?_ hj
    simpa [ImageSurface.create] using hr

/-- Witness for C9: a successful conversion of the concrete
reference-format image, checked fully populated. -/
theorem ConvertImgToSurface_fully_populated_witness :
    (∀ i fmt c, noConvert i fmt = some c → c.height = i.height) ∧
    ConvertImgToSurface noConvert exampleImgBgra = some exampleSurfBgra ∧
    ∃ src : c_Image,
      (src = exampleImgBgra ∨ noConvert exampleImgBgra SKRY_PIX_BGRA8 = some src) ∧
      ∀ r, r < exampleSurfBgra.height → ∀ j, j < exampleSurfBgra.stride →
        exampleSurfBgra.data (r * exampleSurfBgra.stride + j) = src.line r j := by
  have hconv : ∀ i fmt c, noConvert i fmt = some c → c.height = i.height := by
    intro i fmt c hc
    cases hc
  exact ⟨hconv, rfl,
    ConvertImgToSurface_fully_populated noConvert hconv exampleImgBgra exampleSurfBgra rfl⟩

/-- C4: one call on an empty registry leaves exactly one descriptor per
reported format (the library's capability list carries no duplicate
identifiers), in report order, and `GetOutputFormatDescr` returns for each
reported identifier the unique descriptor carrying it. -/
theorem EnumerateSupportedOutputFmts_registry_once (reported : List Nat)
    (hnodup : reported.Nodup) :
    (EnumerateSupportedOutputFmts [] reported).map
        (fun d => d.skryOutpFmt) = reported ∧
    (EnumerateSupportedOutputFmts [] reported).Nodup ∧
    ∀ fmt ∈ reported, ∃ d,
      GetOutputFormatDescr (EnumerateSupportedOutputFmts [] reported) fmt = some d ∧
      d.skryOutpFmt = fmt ∧ d ∈ EnumerateSupportedOutputFmts [] reported ∧
      ∀ e ∈ EnumerateSupportedOutputFmts [] reported,
        e.skryOutpFmt = fmt → e = d := by
  have hreg : EnumerateSupportedOutputFmts [] reported = reported.map mkDescr := by
    rw [EnumerateSupportedOutputFmts_eq]
    simp
  have hmap : (EnumerateSupportedOutputFmts [] reported).map
      (fun d => d.skryOutpFmt) = reported := by
    rw [hreg, List.map_map]
    have hcomp : ((fun d : OutputFormatDescr_t => d.skryOutpFmt) ∘ mkDescr) =
        (id : Nat → Nat) := by
      funext f
      simp [Function.comp, mkDescr_skryOutpFmt]
    rw [hcomp, List.map_id]
  refine ⟨hmap, ?_, ?_⟩
  · exact List.Nodup.of_map _ (by rw [hmap]; exact hnodup)
  · intro fmt hfmt
    refine ⟨mkDescr fmt, ?_, mkDescr_skryOutpFmt fmt, ?_, ?_⟩
    · rw [hreg]
      exact GetOutputFormatDescr_map_mkDescr reported fmt hfmt
    · rw [hreg]
      exact List.mem_map.mpr ⟨fmt, hfmt, rfl⟩
    · intro e he heq
      rw [hreg] at he
      exact mem_map_mkDescr_eq reported fmt e he heq

/-- Witness for C4 at the concrete report `[SKRY_TIFF_16, SKRY_BMP_8]`
(duplicate-free, deliberately not in ascending order). -/
theorem EnumerateSupportedOutputFmts_registry_once_witness :
    ([SKRY_TIFF_16, SKRY_BMP_8] : List Nat).Nodup ∧
    ((EnumerateSupportedOutputFmts [] [SKRY_TIFF_16, SKRY_BMP_8]).map
        (fun d => d.skryOutpFmt) = [SKRY_TIFF_16, SKRY_BMP_8] ∧
    (EnumerateSupportedOutputFmts [] [SKRY_TIFF_16, SKRY_BMP_8]).Nodup ∧
    ∀ fmt ∈ ([SKRY_TIFF_16, SKRY_BMP_8] : List Nat), ∃ d,
      GetOutputFormatDescr
        (EnumerateSupportedOutputFmts [] [SKRY_TIFF_16, SKRY_BMP_8]) fmt = some d ∧
      d.skryOutpFmt = fmt ∧
      d ∈ EnumerateSupportedOutputFmts [] [SKRY_TIFF_16, SKRY_BMP_8] ∧
      ∀ e ∈ EnumerateSupportedOutputFmts [] [SKRY_TIFF_16, SKRY_BMP_8],
        e.skryOutpFmt = fmt → e = d) := by
  have hnodup : ([SKRY_TIFF_16, SKRY_BMP_8] : List Nat).Nodup := by decide
  exact ⟨hnodup, EnumerateSupportedOutputFmts_registry_once _ hnodup⟩

/-- C5 counterexample: a second invocation with the same one-element report
appends the descriptor again, so the double invocation differs from the
single one — the operation is not idempotent. -/
theorem EnumerateSupportedOutputFmts_not_idempotent :
    EnumerateSupportedOutputFmts
        (EnumerateSupportedOutputFmts [] [SKRY_BMP_8]) [SKRY_BMP_8] ≠
      EnumerateSupportedOutputFmts [] [SKRY_BMP_8] := by
  intro h
  have hlen := congrArg List.length h
  simp [EnumerateSupportedOutputFmts_eq] at hlen

/-- C5 amended: each invocation appends one descriptor per reported format
to the registry it starts from, so invoking the operation twice with the
same report appends the descriptor list twice — the registry stays
duplicate-free only because the initializer is called exactly once during
startup. -/
theorem EnumerateSupportedOutputFmts_double_append
    (registry : List OutputFormatDescr_t) (reported : List Nat) :
    EnumerateSupportedOutputFmts
        (EnumerateSupportedOutputFmts registry reported) reported =
      registry ++ reported.map mkDescr ++ reported.map mkDescr := by
  rw [EnumerateSupportedOutputFmts_eq, EnumerateSupportedOutputFmts_eq]

/-- C8: for an identifier that was in the reported list at initialization,
the linear scan of `GetOutputFormatDescr` finds a descriptor, so the
`assert(0)` branch (modelled as the `none` result) is unreachable and a
descriptor is returned. -/
theorem GetOutputFormatDescr_present_of_reported (reported : List Nat)
    (fmt : Nat) (h : fmt ∈ reported) :
    ∃ d, GetOutputFormatDescr (EnumerateSupportedOutputFmts [] reported) fmt =
        some d ∧ d.skryOutpFmt = fmt := by
  have hreg : EnumerateSupportedOutputFmts [] reported = reported.map mkDescr := by
    rw [EnumerateSupportedOutputFmts_eq]
    simp
  refine ⟨mkDescr fmt, ?_, mkDescr_skryOutpFmt fmt⟩
  rw [hreg]
  exact GetOutputFormatDescr_map_mkDescr reported fmt h

/-- Witness for C8: `SKRY_PNG_8` queried on a registry built from a report
containing it. -/
theorem GetOutputFormatDescr_present_of_reported_witness :
    SKRY_PNG_8 ∈ ([SKRY_TIFF_16, SKRY_PNG_8] : List Nat) ∧
    ∃ d, GetOutputFormatDescr
        (EnumerateSupportedOutputFmts [] [SKRY_TIFF_16, SKRY_PNG_8]) SKRY_PNG_8 =
        some d ∧ d.skryOutpFmt = SKRY_PNG_8 := by
  have hmem : SKRY_PNG_8 ∈ ([SKRY_TIFF_16, SKRY_PNG_8] : List Nat) := by decide
  exact ⟨hmem, GetOutputFormatDescr_present_of_reported _ SKRY_PNG_8 hmem⟩

/-- C10: a reported identifier other than the three the `switch` knows
still gets a descriptor appended, but the switch sets none of its fields:
display name, pattern list and default extension all stay at their
default-constructed empty values, only `skryOutpFmt` is set. -/
theorem EnumerateSupportedOutputFmts_unknown_format
    (registry : List OutputFormatDescr_t) (fmts : List Nat) (fmt : Nat)
    (h1 : fmt ≠ SKRY_BMP_8) (h2 : fmt ≠ SKRY_TIFF_16) (h3 : fmt ≠ SKRY_PNG_8) :
    EnumerateSupportedOutputFmts registry (fmts ++ [fmt]) =
      EnumerateSupportedOutputFmts registry fmts ++
        [{ skryOutpFmt := fmt, name := "", patterns := [],
           defaultExtension := "" }] := by
  rw [EnumerateSupportedOutputFmts_eq, EnumerateSupportedOutputFmts_eq,
    List.map_append]
  simp only [List.map_cons, List.map_nil, List.append_assoc]
  congr 2
  simp [mkDescr, h1, h2, h3]

/-- Witness for C10: the unrecognized identifier 7 after a recognized one. -/
theorem EnumerateSupportedOutputFmts_unknown_format_witness :
    (7 : Nat) ≠ SKRY_BMP_8 ∧ (7 : Nat) ≠ SKRY_TIFF_16 ∧ (7 : Nat) ≠ SKRY_PNG_8 ∧
    EnumerateSupportedOutputFmts [] ([SKRY_BMP_8] ++ [7]) =
      EnumerateSupportedOutputFmts [] [SKRY_BMP_8] ++
        [{ skryOutpFmt := 7, name := "", patterns := [],
           defaultExtension := "" }] :=
  ⟨by decide, by decide, by decide,
    EnumerateSupportedOutputFmts_unknown_format [] [SKRY_BMP_8] 7
      (by decide) (by decide) (by decide)⟩

end Utils
